import Mathlib

/-!
Shallow embedding of the CoinTaxman taxation engine (`src/taxman.py`).

Python `decimal.Decimal` values are embedded as `ℚ` (the source relies on
exact decimal arithmetic; all quantities appearing here are finite decimals).
UTC timestamps are embedded as a pair of a calendar year and an offset inside
that year, ordered lexicographically; `yearEndOfs` marks the last second of a
year (`datetime(Y, 12, 31, 23, 59, 59)`), and every valid timestamp satisfies
`0 ≤ ofs ≤ yearEndOfs`.

The modules `transaction`, `balance_queue`, `config`, `misc` and `price_data`
are collaborators of `taxman.py`; where their behaviour is needed it is
modelled from the specification (marked `Modelled from the spec:`).
-/

/-- A UTC timestamp: calendar year plus position within the year (seconds
since the start of the year). -/
structure Timestamp where
  year : ℤ
  ofs : ℤ
deriving DecidableEq, Repr

/-- The number of seconds from the start of a (non-leap) year to its final
second `12-31 23:59:59`; the largest valid `ofs` of a `Timestamp`. -/
def yearEndOfs : ℤ := 31535999

/-- Chronological order on timestamps (lexicographic on year, then offset). -/
def tsLe (a b : Timestamp) : Bool :=
  decide (a.year < b.year) || (decide (a.year = b.year) && decide (a.ofs ≤ b.ofs))

/-- Python `min` of two comparable values: the first argument on ties. -/
def tsMin (a b : Timestamp) : Timestamp :=
  if tsLe a b then a else b

/-- `datetime(y, 12, 31, 23, 59, 59)`: the last second of calendar year `y`. -/
def lastSecondOfYear (y : ℤ) : Timestamp :=
  ⟨y, yearEndOfs⟩

/-- The operation kinds of `transaction.py` (a closed set; the taxation state
machine dispatches on them exhaustively). -/
inductive OpKind where
  | Buy | Sell | CoinLend | CoinLendEnd | CoinLendInterest
  | Staking | StakingEnd | StakingInterest
  | Airdrop | Commission | Deposit | Withdrawal
deriving DecidableEq, Repr

/-- A transaction fee (`tr.Fee`): an amount of some coin on some platform. -/
structure Fee where
  platform : String
  coin : String
  change : ℚ
  utc_time : Timestamp
deriving DecidableEq, Repr

/-- An operation record (`tr.Operation` and its subclasses).

Modelled from the spec: `transaction.py` is not under `src/`; §3 of the spec
gives the common attributes (platform, coin, positive change, UTC timestamp,
optional fee list, remark), the optional `link` of a Deposit/Withdrawal to its
paired operation, and the `withdrawn_coins` back-annotation of a Withdrawal
(the list of lots it consumed, as pairs of originating operation and amount).
Provenance fields (`file_path`, `line`) are diagnostics only and are omitted.
-/
inductive Op : Type where
  | mk (kind : OpKind) (platform : String) (coin : String) (change : ℚ)
      (utc_time : Timestamp) (fees : Option (List Fee)) (link : Option Op)
      (withdrawn_coins : List (Op × ℚ)) (remark : String)

def Op.kind : Op → OpKind
  | .mk k _ _ _ _ _ _ _ _ => k

def Op.platform : Op → String
  | .mk _ p _ _ _ _ _ _ _ => p

def Op.coin : Op → String
  | .mk _ _ c _ _ _ _ _ _ => c

def Op.change : Op → ℚ
  | .mk _ _ _ ch _ _ _ _ _ => ch

def Op.utc_time : Op → Timestamp
  | .mk _ _ _ _ t _ _ _ _ => t

def Op.fees : Op → Option (List Fee)
  | .mk _ _ _ _ _ f _ _ _ => f

def Op.link : Op → Option Op
  | .mk _ _ _ _ _ _ l _ _ => l

def Op.remark : Op → String
  | .mk _ _ _ _ _ _ _ _ r => r

/-- A consumed lot (`tr.SoldCoin`): the originating operation of the lot and
the amount taken from it. -/
structure SoldCoin where
  op : Op
  sold : ℚ

def Op.withdrawn_coins : Op → List SoldCoin
  | .mk _ _ _ _ _ _ _ w _ => w.map (fun p => ⟨p.1, p.2⟩)

/-- An acquisition lot inside a balance queue: originating operation plus
remaining amount. -/
structure Lot where
  op : Op
  amount : ℚ

/-- The configured cost-basis accounting principle. -/
inductive Principle where
  | FIFO | LIFO
deriving DecidableEq, Repr

/-- The configuration of a run.

Modelled from the spec: `config.py` is not under `src/`. It provides the
reporting fiat currency, the tax year, the multi-depot switch, the accounting
principle, the airdrop classification switch, the country-specific long-term
holding predicate `IS_LONG_TERM(buy_time, sell_time)`, the fiat-coin test
used by `misc.is_fiat`, and the current wall-clock time used to build
`TAX_DEADLINE`. -/
structure Config where
  FIAT : String
  TAX_YEAR : ℤ
  MULTI_DEPOT : Bool
  PRINCIPLE : Principle
  ALL_AIRDROPS_ARE_GIFTS : Bool
  IS_LONG_TERM : Timestamp → Timestamp → Bool
  is_fiat : String → Bool
  now : Timestamp

/-- The cost-basis lookup collaborator (`price_data.PriceData`).

Modelled from the spec: §6 exposes it as an interface only —
`cost(operation, proportion)` / `partial_cost(operation_or_fee, proportion)`
returning a fiat amount, failing with `PriceUnavailable`
(`NotImplementedError` in the source); `none` stands for that failure.
The overloaded Python methods are split by argument type. -/
structure PriceData where
  get_cost_op : Op → Option ℚ
  get_cost_sc : SoldCoin → Option ℚ
  get_part_cost_fee : Fee → ℚ → Option ℚ
  get_part_cost_op : Op → ℚ → Option ℚ

/-- The failure taxonomy of the engine (spec §7).  Python `assert` failures
abort the run and are represented by `AssertionFailed` with the asserted
condition's text. -/
inductive TaxErr where
  | PriceUnavailable
  | UnsupportedFeeStructure
  | InsufficientBalance
  | NegativeBalance
  | PostDeadlineOperation
  | AssertionFailed (msg : String)
deriving DecidableEq, Repr

/-- The two sell-report classes passed as `ReportType` in the source. -/
inductive ReportKind where
  | SellReportEntry
  | UnrealizedSellReportEntry
deriving DecidableEq, Repr

/-- `tr.SellReportEntry` / `tr.UnrealizedSellReportEntry`
(fields as constructed in `taxman.py`). -/
structure SellReportEntry where
  kind : ReportKind
  sell_platform : String
  buy_platform : String
  amount : ℚ
  coin : String
  sell_utc_time : Timestamp
  buy_utc_time : Timestamp
  first_fee_amount : ℚ
  first_fee_coin : String
  first_fee_in_fiat : ℚ
  second_fee_amount : ℚ
  second_fee_coin : String
  second_fee_in_fiat : ℚ
  sell_value_in_fiat : ℚ
  buy_value_in_fiat : ℚ
  is_taxable : Bool
  taxation_type : String
  remark : String
deriving DecidableEq, Repr

/-- Which interest report class was chosen in the interest branch. -/
inductive InterestKind where
  | InterestReportEntry
  | LendingInterestReportEntry
  | StakingInterestReportEntry
deriving DecidableEq, Repr

/-- `tr.InterestReportEntry` and friends (fields as constructed in
`taxman.py`), tagged with the chosen class. -/
structure InterestReportEntry where
  variant : InterestKind
  platform : String
  amount : ℚ
  coin : String
  utc_time : Timestamp
  interest_in_fiat : ℚ
  taxation_type : String
  remark : String
deriving DecidableEq, Repr

/-- `tr.AirdropReportEntry` (fields as constructed in `taxman.py`). -/
structure AirdropReportEntry where
  platform : String
  amount : ℚ
  coin : String
  utc_time : Timestamp
  in_fiat : ℚ
  taxation_type : String
  remark : String
deriving DecidableEq, Repr

/-- `tr.CommissionReportEntry` (fields as constructed in `taxman.py`). -/
structure CommissionReportEntry where
  platform : String
  amount : ℚ
  coin : String
  utc_time : Timestamp
  in_fiat : ℚ
  taxation_type : String
  remark : String
deriving DecidableEq, Repr

/-- `tr.TransferReportEntry` (fields as constructed in `taxman.py`). -/
structure TransferReportEntry where
  first_platform : String
  second_platform : String
  amount : ℚ
  coin : String
  first_utc_time : Timestamp
  second_utc_time : Timestamp
  first_fee_amount : ℚ
  first_fee_coin : String
  first_fee_in_fiat : ℚ
  remark : String
deriving DecidableEq, Repr

/-- `tr.TaxReportEntry`: the tagged union of all report entry classes. -/
inductive TaxReportEntry where
  | sell (e : SellReportEntry)
  | interest (e : InterestReportEntry)
  | airdrop (e : AirdropReportEntry)
  | commission (e : CommissionReportEntry)
  | transfer (e : TransferReportEntry)
deriving DecidableEq, Repr

/-- `misc.dsum`: exact sum of a list of decimal amounts. -/
def dsum (l : List ℚ) : ℚ := l.foldr (· + ·) 0

/-- Consume `amount` coins from the front of a lot list, in order.

Modelled from the spec: `balance_queue.remove` (§4.1) must, in accounting
order, dequeue or partially dequeue lots totalling exactly `amount`,
returning the ordered consumed lots, and fail with `InsufficientBalance`
(`none` here) when the total available is less than `amount`; a lot whose
remaining amount reaches zero is removed from the queue. -/
def consume : List Lot → ℚ → Option (List SoldCoin × List Lot)
  | lots, amount =>
    if amount = 0 then some ([], lots)
    else
      match lots with
      | [] => none
      | l :: rest =>
        if l.amount ≤ amount then
          (consume rest (amount - l.amount)).map
            (fun p => (⟨l.op, l.amount⟩ :: p.1, p.2))
        else
          some ([⟨l.op, amount⟩], ⟨l.op, l.amount - amount⟩ :: rest)

/-- Dequeue `amount` from a lot queue in the configured accounting order.

Modelled from the spec: FIFO takes the oldest lot first, LIFO the newest;
the two variants differ only in dequeue order (§4.1).  Lots are stored in
acquisition order, so LIFO consumes the reversed queue. -/
def queueRemove (principle : Principle) (lots : List Lot) (amount : ℚ) :
    Option (List SoldCoin × List Lot) :=
  match principle with
  | .FIFO => consume lots amount
  | .LIFO => (consume lots.reverse amount).map (fun p => (p.1, p.2.reverse))

/-- Drain every remaining lot of a queue.

Modelled from the spec: `balance_queue.remove_all` (§4.1) returns a consumed
lot for each remaining lot; used only at deadline liquidation. -/
def remove_all (lots : List Lot) : List SoldCoin :=
  lots.map (fun l => ⟨l.op, l.amount⟩)

/-- Whether a queue violates the no-negative-lot invariant.

Modelled from the spec: `balance_queue.sanity_check` (§4.1) fails with
`NegativeBalance` exactly when some lot carries a negative remaining
amount. -/
def hasNegativeLot (lots : List Lot) : Bool :=
  lots.any (fun l => decide (l.amount < 0))

/-- Two-level portfolio snapshot, as an association list with lookups
defaulting to zero (`collections.defaultdict(… Decimal)` in the source). -/
def Portfolio := List ((String × String) × ℚ)

/-- Lookup in the portfolio snapshot, defaulting to zero. -/
def portfolioGet (p : Portfolio) (platform coin : String) : ℚ :=
  match p.find? (fun e => e.1 == (platform, coin)) with
  | some e => e.2
  | none => 0

/-- `self.portfolio_at_deadline[platform][coin] += amount`. -/
def portfolioAdd (p : Portfolio) (platform coin : String) (amount : ℚ) :
    Portfolio :=
  match p with
  | [] => [((platform, coin), amount)]
  | e :: rest =>
    if e.1 == (platform, coin) then (e.1, e.2 + amount) :: rest
    else e :: portfolioAdd rest platform coin amount

/-- The mutable state of a `Taxman` instance: the balance queues (an
insertion-ordered map, as a Python dict), the accumulated report entries and
the portfolio snapshot. -/
structure TaxmanState where
  balances : List ((String × String) × List Lot)
  tax_report_entries : List TaxReportEntry
  portfolio_at_deadline : Portfolio

/-- The fresh state built by `Taxman.__init__`. -/
def initialState : TaxmanState :=
  ⟨[], [], []⟩

/-- The balance key: `(platform, coin)` under `config.MULTI_DEPOT`, the coin
alone otherwise (embedded with an empty platform component). -/
def balKey (cfg : Config) (platform coin : String) : String × String :=
  if cfg.MULTI_DEPOT then (platform, coin) else ("", coin)

/-- `Taxman.balance`: the queue stored under a key (a fresh empty queue when
the key is missing, as the source creates one on first access). -/
def getBalance (bs : List ((String × String) × List Lot))
    (k : String × String) : List Lot :=
  match bs.find? (fun e => e.1 == k) with
  | some e => e.2
  | none => []

/-- Store a queue under a key, appending the key in insertion order when it
is new (Python dicts preserve insertion order). -/
def setBalance (bs : List ((String × String) × List Lot))
    (k : String × String) (q : List Lot) :
    List ((String × String) × List Lot) :=
  match bs with
  | [] => [(k, q)]
  | e :: rest =>
    if e.1 == k then (k, q) :: rest
    else e :: setBalance rest k q

/-- `Taxman.add_to_balance`: append the operation as a new lot with remaining
amount `op.change`. -/
def add_to_balance (cfg : Config) (st : TaxmanState) (op : Op) : TaxmanState :=
  let k := balKey cfg op.platform op.coin
  { st with balances := setBalance st.balances k (getBalance st.balances k ++ [⟨op, op.change⟩]) }

/-- `Taxman.remove_from_balance`: dequeue `op.change` coins from the
operation's balance, returning the consumed lots. -/
def remove_from_balance (cfg : Config) (st : TaxmanState) (op : Op) :
    Except TaxErr (List SoldCoin × TaxmanState) :=
  match queueRemove cfg.PRINCIPLE
      (getBalance st.balances (balKey cfg op.platform op.coin)) op.change with
  | none => .error .InsufficientBalance
  | some (scs, q) =>
    .ok (scs, { st with balances :=
      (setBalance st.balances (balKey cfg op.platform op.coin) q) })

/-- The body of the `for fee in fees` loop of
`Taxman.remove_fees_from_balance`: dequeue one declared fee from the fee
coin's balance (`balance_op(fee).remove_fee(fee)`), discarding the consumed
lots. -/
def removeFeeStep (cfg : Config) (s : TaxmanState) (fee : Fee) :
    Except TaxErr TaxmanState :=
  match queueRemove cfg.PRINCIPLE
      (getBalance s.balances (balKey cfg fee.platform fee.coin)) fee.change with
  | none => .error TaxErr.InsufficientBalance
  | some p =>
    .ok { s with balances :=
      (setBalance s.balances (balKey cfg fee.platform fee.coin) p.2) }

/-- `Taxman.remove_fees_from_balance`: dequeue each declared fee from the fee
coin's balance (consumed lots are discarded). -/
def remove_fees_from_balance (cfg : Config) (st : TaxmanState)
    (fees : Option (List Fee)) : Except TaxErr TaxmanState :=
  match fees with
  | none => .ok st
  | some fs => fs.foldlM (removeFeeStep cfg) st

/-- `taxman.in_tax_year`: calendar-year equality with the configured tax
year. -/
def in_tax_year (cfg : Config) (op : Op) : Bool :=
  op.utc_time.year == cfg.TAX_YEAR

/-- `taxman.TAX_DEADLINE`: the minimum of the current time and
`datetime(TAX_YEAR, 12, 31, 23, 59, 59)`. -/
def TAX_DEADLINE (cfg : Config) : Timestamp :=
  tsMin cfg.now (lastSecondOfYear cfg.TAX_YEAR)

/-- Lift a cost-basis lookup result; `none` is the collaborator's
`NotImplementedError` (`PriceUnavailable`). -/
def liftPrice (r : Option ℚ) : Except TaxErr ℚ :=
  match r with
  | some v => .ok v
  | none => .error .PriceUnavailable

/-- `Taxman._evaluate_fee`: prorated fee amount, fee coin, and the fee's
fiat equivalent at the same proportion. -/
def evaluate_fee (pd : PriceData) (fee : Fee) (percent : ℚ) :
    Except TaxErr (ℚ × String × ℚ) :=
  (liftPrice (pd.get_part_cost_fee fee percent)).map
    (fun c => (fee.change * percent, fee.coin, c))

/-- The `first_fee_… / second_fee_…` block of `Taxman._evaluate_sell`
(lines 153–171), with the source's exact `if … elif … elif … else` chain:
the first `elif len(op.fees) >= 1` captures every non-empty fee list, so the
`len(op.fees) >= 2` branch and the final `raise NotImplementedError` are
unreachable; both are embedded nevertheless. -/
def sellFeeParts (pd : PriceData) (fees : Option (List Fee)) (percent : ℚ) :
    Except TaxErr ((ℚ × String × ℚ) × (ℚ × String × ℚ)) :=
  let fz : ℚ × String × ℚ := (0, "", 0)
  let fs := fees.getD []
  if fees.isNone || fs.length == 0 then .ok (fz, fz)
  else if h : 1 ≤ fs.length then
    (evaluate_fee pd (fs.get ⟨0, h⟩) percent).map (fun t => (t, fz))
  else if h2 : 2 ≤ fs.length then
    (evaluate_fee pd (fs.get ⟨1, h2⟩) percent).map (fun t => (fz, t))
  else .error .UnsupportedFeeStructure

/-- The `buying_fees` block of `Taxman._evaluate_sell` (lines 173–180): the
consumed lot's own acquisition fees, prorated by `sc.sold / sc.op.change`
and converted to fiat; zero when the lot has no fees (Python truthiness:
`None` or an empty list). -/
def buyingFees (pd : PriceData) (sc : SoldCoin) : Except TaxErr ℚ :=
  match sc.op.fees with
  | none => .ok 0
  | some fs =>
    if fs.isEmpty then .ok 0
    else if sc.sold ≤ sc.op.change then
      (fs.mapM (fun f => liftPrice (pd.get_part_cost_fee f (sc.sold / sc.op.change)))).map dsum
    else .error (.AssertionFailed "sc.sold <= sc.op.change")

/-- The `sell_value_in_fiat` block of `Taxman._evaluate_sell`
(lines 188–206): the disposal-value lookup; a `PriceUnavailable` failure is
swallowed (value zero, warning logged) exactly when the evaluation builds an
`UnrealizedSellReportEntry`, and propagated otherwise. -/
def sellValueInFiat (pd : PriceData) (op : Op) (percent : ℚ)
    (ReportType : ReportKind) : Except TaxErr ℚ :=
  match pd.get_part_cost_op op percent with
  | some v => .ok v
  | none =>
    if ReportType = .UnrealizedSellReportEntry then .ok 0
    else .error .PriceUnavailable

/-- `Taxman._evaluate_sell`: evaluate a single consumed lot of a (possibly
synthetic) sell operation and build the report entry. -/
def evaluate_sell_sc (cfg : Config) (pd : PriceData) (op : Op) (sc : SoldCoin)
    (additional_fee : Option ℚ) (ReportType : ReportKind) :
    Except TaxErr SellReportEntry :=
  if op.coin ≠ sc.op.coin then .error (.AssertionFailed "op.coin == sc.op.coin")
  else
    let additional_fee := additional_fee.getD 0
    let percent := sc.sold / op.change
    do
      let feeParts ← sellFeeParts pd op.fees percent
      let buying_fees ← buyingFees pd sc
      let cost_sc ← liftPrice (pd.get_cost_sc sc)
      let buy_value_in_fiat := cost_sc + buying_fees + additional_fee
      let is_taxable := ! cfg.IS_LONG_TERM sc.op.utc_time op.utc_time
      let sell_value_in_fiat ← sellValueInFiat pd op percent ReportType
      pure
        { kind := ReportType
          sell_platform := op.platform
          buy_platform := sc.op.platform
          amount := sc.sold
          coin := op.coin
          sell_utc_time := op.utc_time
          buy_utc_time := sc.op.utc_time
          first_fee_amount := feeParts.1.1
          first_fee_coin := feeParts.1.2.1
          first_fee_in_fiat := feeParts.1.2.2
          second_fee_amount := feeParts.2.1
          second_fee_coin := feeParts.2.2.1
          second_fee_in_fiat := feeParts.2.2.2
          sell_value_in_fiat := sell_value_in_fiat
          buy_value_in_fiat := buy_value_in_fiat
          is_taxable := is_taxable
          taxation_type := "Sonstige Einkünfte"
          remark := op.remark }

/-- `tr.Withdrawal.partial_withdrawn_coins`.

Modelled from the spec: `transaction.py` is not under `src/`; §4.3 requires
the sold fraction to be pro-rated through both legs of the transfer, so each
consumed lot of the withdrawal is scaled by the given proportion. -/
def withdrawnCoinsShare (link : Op) (percent : ℚ) : List SoldCoin :=
  link.withdrawn_coins.map (fun w => ⟨w.op, w.sold * percent⟩)

/-- The implicit transfer fee attributed to one withdrawn consumed lot
(`wsc_deposit_fee` in `Taxman.evaluate_sell`):
`(link.change − deposit.change) · (sc.sold / deposit.change) ·
(wsc.sold / link.change)`. -/
def wscDepositFee (link : Op) (sc : SoldCoin) (wsc : SoldCoin) : ℚ :=
  ((link.change - sc.op.change) * (sc.sold / sc.op.change)) * (wsc.sold / link.change)

/-- The body of the `for sc in sold_coins` loop of `Taxman.evaluate_sell`
(lines 239–289): a consumed lot that is a Deposit carrying a link is traced
back through the link, evaluating each pro-rated withdrawn lot; the implicit
transfer fee is computed (and warned about) but the additional fee passed to
the evaluation is zero, the fiat conversion being commented out in the
source.  Any other consumed lot (including an unlinked Deposit, which only
logs a warning) is evaluated directly. -/
def evalSoldCoin (cfg : Config) (pd : PriceData) (op : Op) (sc : SoldCoin) :
    Except TaxErr (List SellReportEntry) :=
  match sc.op.kind, sc.op.link with
  | .Deposit, some link =>
    if link.change < sc.op.change then
      .error (.AssertionFailed "Withdrawal must be equal or greater than the deposited amount.")
    else
      let deposit_fee := link.change - sc.op.change
      let sold_percent := sc.sold / sc.op.change
      let sold_deposit_fee := deposit_fee * sold_percent
      (withdrawnCoinsShare link sold_percent).foldlM
        (fun acc wsc =>
          let wsc_percent := wsc.sold / link.change
          -- computed, warned about when nonzero, but never entering the entry:
          let _wsc_deposit_fee := sold_deposit_fee * wsc_percent
          let wsc_fee_in_fiat : ℚ := 0
          (evaluate_sell_sc cfg pd op wsc (some wsc_fee_in_fiat) .SellReportEntry).map
            (fun e => acc ++ [e]))
        []
  | _, _ =>
    (evaluate_sell_sc cfg pd op sc none .SellReportEntry).map (fun e => [e])

/-- `Taxman.evaluate_sell`: assert the preconditions, then evaluate every
consumed lot of the sell, accumulating the emitted report entries in
order. -/
def evaluate_sell (cfg : Config) (pd : PriceData) (op : Op)
    (sold_coins : List SoldCoin) : Except TaxErr (List SellReportEntry) :=
  if op.coin = cfg.FIAT then .error (.AssertionFailed "op.coin != config.FIAT")
  else if ¬ in_tax_year cfg op then .error (.AssertionFailed "in_tax_year(op)")
  else if op.change ≠ dsum (sold_coins.map SoldCoin.sold) then
    .error (.AssertionFailed "op.change == dsum(sc.sold for sc in sold_coins)")
  else
    sold_coins.foldlM
      (fun acc sc => (evalSoldCoin cfg pd op sc).map (fun es => acc ++ es)) []

/-- `Taxman._evaluate_taxation_GERMANY`: the per-operation transition of the
taxation state machine (selected at construction for `config.COUNTRY =
GERMANY`).  The Python `else: raise NotImplementedError` catch-all is
unreachable here because `OpKind` is the closed set of transaction classes.

The source additionally back-annotates a processed Withdrawal with the lots
it consumed (`op.withdrawn_coins = …`); operations being immutable records
in this embedding, a linked Deposit already carries its withdrawal's
consumed lots as data. -/
def evaluate_taxation_GERMANY (cfg : Config) (pd : PriceData)
    (st : TaxmanState) (op : Op) : Except TaxErr TaxmanState :=
  match op.kind with
  | .CoinLend | .Staking => .ok st
  | .CoinLendEnd | .StakingEnd => .ok st
  | .Buy => .ok (add_to_balance cfg st op)
  | .Sell => do
    let r ← remove_from_balance cfg st op
    let st2 ← remove_fees_from_balance cfg r.2 op.fees
    if op.coin ≠ cfg.FIAT ∧ in_tax_year cfg op then
      (evaluate_sell cfg pd op r.1).map (fun es =>
        { st2 with tax_report_entries :=
            st2.tax_report_entries ++ es.map TaxReportEntry.sell })
    else .ok st2
  | .CoinLendInterest => interestBranch cfg pd st op
  | .StakingInterest => interestBranch cfg pd st op
  | .Airdrop =>
    let st1 := add_to_balance cfg st op
    if in_tax_year cfg op then
      (liftPrice (pd.get_cost_op op)).map (fun v =>
        { st1 with tax_report_entries := st1.tax_report_entries ++
            [.airdrop ⟨op.platform, op.change, op.coin, op.utc_time, v,
              if cfg.ALL_AIRDROPS_ARE_GIFTS then "Schenkung"
              else "Einkünfte aus sonstigen Leistungen", op.remark⟩] })
    else .ok st1
  | .Commission =>
    let st1 := add_to_balance cfg st op
    if in_tax_year cfg op then
      (liftPrice (pd.get_cost_op op)).map (fun v =>
        { st1 with tax_report_entries := st1.tax_report_entries ++
            [.commission ⟨op.platform, op.change, op.coin, op.utc_time, v,
              "Einkünfte aus sonstigen Leistungen", op.remark⟩] })
    else .ok st1
  | .Deposit =>
    let st1 := add_to_balance cfg st op
    match op.link with
    | some link =>
      if op.coin ≠ link.coin then .error (.AssertionFailed "op.coin == op.link.coin")
      else
        (liftPrice (pd.get_cost_op op)).map (fun v =>
          { st1 with tax_report_entries := st1.tax_report_entries ++
              [.transfer ⟨op.platform, link.platform, op.change, op.coin,
                op.utc_time, link.utc_time, link.change - op.change, op.coin,
                v, op.remark⟩] })
    | none => .ok st1
  | .Withdrawal =>
    (remove_from_balance cfg st op).map (fun r => r.2)
where
  /-- The `CoinLendInterest / StakingInterest` branch of the transition. -/
  interestBranch (cfg : Config) (pd : PriceData) (st : TaxmanState) (op : Op) :
      Except TaxErr TaxmanState :=
    let st1 := add_to_balance cfg st op
    if in_tax_year cfg op then
      let vt : InterestKind × String :=
        if op.kind = .CoinLendInterest then
          if cfg.is_fiat op.coin then
            (.InterestReportEntry, "Einkünfte aus Kapitalvermögen")
          else
            (.LendingInterestReportEntry, "Einkünfte aus sonstigen Leistungen")
        else
          (.StakingInterestReportEntry, "Einkünfte aus sonstigen Leistungen")
      (liftPrice (pd.get_cost_op op)).map (fun v =>
        { st1 with tax_report_entries := st1.tax_report_entries ++
            [.interest ⟨vt.1, op.platform, op.change, op.coin, op.utc_time,
              v, vt.2, op.remark⟩] })
    else .ok st1

/-- Insert an operation into a list already sorted by timestamp, after every
operation that does not come strictly later (so the overall sort is
stable). -/
def insertByTime (ys : List Op) (x : Op) : List Op :=
  match ys with
  | [] => [x]
  | y :: ys2 =>
    if tsLe y.utc_time x.utc_time then y :: insertByTime ys2 x
    else x :: y :: ys2

/-- `tr.sort_operations(operations, ["utc_time"])`.

Modelled from the spec: `transaction.py` is not under `src/`; §4.4 requires
a stable sort of the operation stream by timestamp.  Embedded as a stable
insertion sort. -/
def sort_operations (ops : List Op) : List Op :=
  ops.foldl insertByTime []

/-- The main loop of `Taxman.evaluate_taxation`: fold the per-operation
transition over the sorted stream. -/
def processOperations (cfg : Config) (pd : PriceData) (ops : List Op)
    (st : TaxmanState) : Except TaxErr TaxmanState :=
  ops.foldlM (evaluate_taxation_GERMANY cfg pd) st

/-- The synthetic sell of one remaining lot at the deadline
(`tr.Sell(utc_time=TAX_DEADLINE, …, fees=None)` in the source). -/
def unrealized_sell_op (cfg : Config) (sc : SoldCoin) : Op :=
  .mk .Sell sc.op.platform sc.op.coin sc.sold (TAX_DEADLINE cfg) none none [] ""

/-- The body of the `for sc in sold_coins` loop of the deadline phase of
`Taxman.evaluate_taxation` (lines 466–485): add the consumed lot to the
portfolio snapshot under its originating platform and coin, then evaluate it
as a synthetic sell producing an `UnrealizedSellReportEntry`. -/
def liquidateSoldCoin (cfg : Config) (pd : PriceData) (st : TaxmanState)
    (sc : SoldCoin) : Except TaxErr TaxmanState :=
  let st1 := { st with portfolio_at_deadline :=
      (portfolioAdd st.portfolio_at_deadline sc.op.platform sc.op.coin sc.sold) }
  (evaluate_sell_sc cfg pd (unrealized_sell_op cfg sc) sc none
    .UnrealizedSellReportEntry).map (fun e =>
      { st1 with tax_report_entries := st1.tax_report_entries ++ [.sell e] })

/-- The per-queue body of the deadline phase of `Taxman.evaluate_taxation`
(lines 462–485): run the sanity check (fatal on a negative lot), then drain
the queue and liquidate every resulting consumed lot. -/
def liquidateBalance (cfg : Config) (pd : PriceData) (st : TaxmanState)
    (e : (String × String) × List Lot) : Except TaxErr TaxmanState :=
  if hasNegativeLot e.2 then .error .NegativeBalance
  else
    (remove_all e.2).foldlM (liquidateSoldCoin cfg pd)
      { st with balances := setBalance st.balances e.1 [] }

/-- `Taxman.evaluate_taxation`: validate that no operation is timestamped
after the tax year, sort the stream, process it operation by operation, then
liquidate every balance at the deadline. -/
def evaluate_taxation (cfg : Config) (pd : PriceData) (ops : List Op) :
    Except TaxErr TaxmanState :=
  if ¬ (ops.all (fun op => decide (op.utc_time.year ≤ cfg.TAX_YEAR))) then
    .error .PostDeadlineOperation
  else do
    let st ← processOperations cfg pd (sort_operations ops) initialState
    st.balances.foldlM (liquidateBalance cfg pd) st

/-! ## Helper lemmas -/

theorem exbind_ok_inv {ε α β : Type} {x : Except ε α} {f : α → Except ε β}
    {b : β} (h : (x >>= f) = .ok b) : ∃ a, x = .ok a ∧ f a = .ok b := by
  cases x with
  | ok a => exact ⟨a, rfl, h⟩
  | error e => simp [Bind.bind, Except.bind] at h

theorem exmap_ok_inv {ε α β : Type} {x : Except ε α} {f : α → β} {b : β}
    (h : x.map f = .ok b) : ∃ a, x = .ok a ∧ f a = b := by
  cases x with
  | ok a =>
    refine ⟨a, rfl, ?_⟩
    simpa [Except.map] using h
  | error e => simp [Except.map] at h

theorem liftPrice_ok_inv {r : Option ℚ} {v : ℚ} (h : liftPrice r = .ok v) :
    r = some v := by
  cases r with
  | some w => simpa [liftPrice] using h
  | none => simp [liftPrice] at h

/-- The prorated amount of the first declared fee, as the source computes
it: `op.fees[0].change * percent` for a non-empty fee list, zero
otherwise. -/
def feeAmountFirst (fees : Option (List Fee)) (percent : ℚ) : ℚ :=
  match fees with
  | none => 0
  | some [] => 0
  | some (f :: _) => f.change * percent

theorem sellFeeParts_ok_inv {pd : PriceData} {fees : Option (List Fee)}
    {percent : ℚ} {fp : (ℚ × String × ℚ) × (ℚ × String × ℚ)}
    (h : sellFeeParts pd fees percent = .ok fp) :
    fp.1.1 = feeAmountFirst fees percent ∧ fp.2.1 = 0 := by
  cases fees with
  | none =>
    simp [sellFeeParts] at h
    simp [← h, feeAmountFirst]
  | some fs =>
    cases fs with
    | nil =>
      simp [sellFeeParts] at h
      simp [← h, feeAmountFirst]
    | cons f rest =>
      simp only [sellFeeParts, Option.isNone, Option.getD, List.length_cons,
        Bool.false_or] at h
      rw [if_neg (by simp), dif_pos (by omega)] at h
      obtain ⟨t, ht, hfp⟩ := exmap_ok_inv h
      obtain ⟨c, _, htv⟩ := exmap_ok_inv ht
      simp [← hfp, ← htv, feeAmountFirst]

/-- Inversion of a successful `evaluate_sell_sc`: the assertion held, every
lookup succeeded, and the entry is the literal record built from their
results. -/
theorem evaluate_sell_sc_ok_inv {cfg : Config} {pd : PriceData} {op : Op}
    {sc : SoldCoin} {af : Option ℚ} {rt : ReportKind} {e : SellReportEntry}
    (h : evaluate_sell_sc cfg pd op sc af rt = .ok e) :
    op.coin = sc.op.coin ∧
    ∃ fp bf c sv,
      sellFeeParts pd op.fees (sc.sold / op.change) = .ok fp ∧
      buyingFees pd sc = .ok bf ∧
      liftPrice (pd.get_cost_sc sc) = .ok c ∧
      sellValueInFiat pd op (sc.sold / op.change) rt = .ok sv ∧
      e = { kind := rt
            sell_platform := op.platform
            buy_platform := sc.op.platform
            amount := sc.sold
            coin := op.coin
            sell_utc_time := op.utc_time
            buy_utc_time := sc.op.utc_time
            first_fee_amount := fp.1.1
            first_fee_coin := fp.1.2.1
            first_fee_in_fiat := fp.1.2.2
            second_fee_amount := fp.2.1
            second_fee_coin := fp.2.2.1
            second_fee_in_fiat := fp.2.2.2
            sell_value_in_fiat := sv
            buy_value_in_fiat := c + bf + af.getD 0
            is_taxable := ! cfg.IS_LONG_TERM sc.op.utc_time op.utc_time
            taxation_type := "Sonstige Einkünfte"
            remark := op.remark } := by
  unfold evaluate_sell_sc at h
  split at h
  · exact absurd h (by simp)
  · next hcoin =>
    refine ⟨not_not.mp hcoin, ?_⟩
    obtain ⟨fp, hfp, h⟩ := exbind_ok_inv h
    obtain ⟨bf, hbf, h⟩ := exbind_ok_inv h
    obtain ⟨c, hc, h⟩ := exbind_ok_inv h
    obtain ⟨sv, hsv, h⟩ := exbind_ok_inv h
    refine ⟨fp, bf, c, sv, hfp, hbf, hc, hsv, ?_⟩
    simpa [Pure.pure, Except.pure] using h.symm

/-- Forward evaluation of `evaluate_sell_sc` under successful lookups. -/
theorem evaluate_sell_sc_eq_ok (cfg : Config) (pd : PriceData) (op : Op)
    (sc : SoldCoin) (af : Option ℚ) (rt : ReportKind)
    {fp : (ℚ × String × ℚ) × (ℚ × String × ℚ)} {bf c sv : ℚ}
    (hcoin : op.coin = sc.op.coin)
    (hfp : sellFeeParts pd op.fees (sc.sold / op.change) = .ok fp)
    (hbf : buyingFees pd sc = .ok bf)
    (hc : liftPrice (pd.get_cost_sc sc) = .ok c)
    (hsv : sellValueInFiat pd op (sc.sold / op.change) rt = .ok sv) :
    evaluate_sell_sc cfg pd op sc af rt =
      .ok { kind := rt
            sell_platform := op.platform
            buy_platform := sc.op.platform
            amount := sc.sold
            coin := op.coin
            sell_utc_time := op.utc_time
            buy_utc_time := sc.op.utc_time
            first_fee_amount := fp.1.1
            first_fee_coin := fp.1.2.1
            first_fee_in_fiat := fp.1.2.2
            second_fee_amount := fp.2.1
            second_fee_coin := fp.2.2.1
            second_fee_in_fiat := fp.2.2.2
            sell_value_in_fiat := sv
            buy_value_in_fiat := c + bf + af.getD 0
            is_taxable := ! cfg.IS_LONG_TERM sc.op.utc_time op.utc_time
            taxation_type := "Sonstige Einkünfte"
            remark := op.remark } := by
  unfold evaluate_sell_sc
  rw [if_neg (by simp [hcoin])]
  simp [hfp, hbf, hc, hsv, Bind.bind, Except.bind, Pure.pure, Except.pure]

/-! ## Concrete fixtures used by witnesses and counterexamples -/

/-- A cost-basis lookup that knows every price (all lookups return 0). -/
def pdConst : PriceData :=
  ⟨fun _ => some 0, fun _ => some 0, fun _ _ => some 0, fun _ _ => some 0⟩

/-- A cost-basis lookup that fails exactly on the disposal-value lookup
(`get_partial_cost(op, percent)`). -/
def pdNoSellValue : PriceData :=
  ⟨fun _ => some 0, fun _ => some 0, fun _ _ => some 0, fun _ _ => none⟩

/-- A sample configuration: EUR reporting currency, tax year 2021, single
depot, FIFO, nothing long-term. -/
def cfgW : Config :=
  ⟨"EUR", 2021, false, .FIFO, false, fun _ _ => false, fun c => c == "EUR",
    ⟨2021, 1000000⟩⟩

def feeBNB : Fee := ⟨"binance", "BNB", 10, ⟨2021, 200⟩⟩

def feeETH : Fee := ⟨"binance", "ETH", 4, ⟨2021, 200⟩⟩

def feeADA : Fee := ⟨"binance", "ADA", 3, ⟨2021, 200⟩⟩

def buyW : Op := .mk .Buy "binance" "BTC" 2 ⟨2021, 100⟩ none none [] ""

/-- A sell of 2 BTC with two distinct fee coins. -/
def sellTwoFees : Op :=
  .mk .Sell "binance" "BTC" 2 ⟨2021, 200⟩ (some [feeBNB, feeETH]) none [] ""

/-- A sell of 2 BTC with three distinct fee coins. -/
def sellThreeFees : Op :=
  .mk .Sell "binance" "BTC" 2 ⟨2021, 200⟩ (some [feeBNB, feeETH, feeADA]) none [] ""

/-- Half of `buyW` consumed: proportion 1/2 of the parent sells. -/
def scHalf : SoldCoin := ⟨buyW, 1⟩

/-! ## Claims -/

/-- A result classifier: did the computation fail with
`UnsupportedFeeStructure`? -/
def isUnsupportedFeeErr {α : Type} : Except TaxErr α → Bool
  | .error .UnsupportedFeeStructure => true
  | _ => false

/-- C2: the claim states that for a Sell with exactly two distinct fee coins
evaluated at proportion p, the report entry populates both fee coins with
amount `fee.change × p` and the corresponding fiat values.  The code does
not: `elif len(op.fees) >= 1` captures every non-empty fee list, so at
proportion 1/2 of `sellTwoFees` (fees 10 BNB and 4 ETH) the first fee is
5 BNB but the second fee fields remain `0, "", 0` instead of `2 ETH` with
its fiat value. -/
theorem c2_second_fee_left_at_zero :
    (evaluate_sell_sc cfgW pdConst sellTwoFees scHalf none .SellReportEntry).toOption.map
      (fun e => (e.first_fee_amount, e.first_fee_coin, e.second_fee_amount,
        e.second_fee_coin, e.second_fee_in_fiat))
      = some (5, "BNB", 0, "", 0) := by
  norm_num [evaluate_sell_sc, sellFeeParts, evaluate_fee, buyingFees, sellValueInFiat,
    liftPrice, pdConst, cfgW, sellTwoFees, scHalf, buyW, feeBNB, feeETH, Op.coin, Op.fees,
    Op.change, Op.platform, Op.utc_time, Op.remark, Except.map, Bind.bind, Except.bind,
    Except.toOption, Pure.pure, Except.pure]

/-- C3: the claim states that more than two distinct fee coins fail with
`UnsupportedFeeStructure` (`NotImplementedError`).  The code never raises
it: the `else: raise NotImplementedError` branch is unreachable because
`elif len(op.fees) >= 1` already captures every non-empty fee list — no fee
list of any length produces the error, and a three-fee sell evaluates
successfully. -/
theorem c3_unsupported_fee_error_unreachable :
    (∀ pd fees percent, isUnsupportedFeeErr (sellFeeParts pd fees percent) = false)
    ∧ (evaluate_sell_sc cfgW pdConst sellThreeFees scHalf none .SellReportEntry).isOk = true := by
  constructor
  · intro pd fees percent
    cases fees with
    | none => simp [sellFeeParts, isUnsupportedFeeErr]
    | some fs =>
      cases fs with
      | nil => simp [sellFeeParts, isUnsupportedFeeErr]
      | cons f rest =>
        simp only [sellFeeParts, Option.isNone, Option.getD, List.length_cons,
          Bool.false_or]
        rw [if_neg (by simp), dif_pos (by omega)]
        cases hpc : pd.get_part_cost_fee f percent with
        | some v => simp [evaluate_fee, liftPrice, hpc, Except.map, isUnsupportedFeeErr]
        | none => simp [evaluate_fee, liftPrice, hpc, Except.map, isUnsupportedFeeErr]
  · norm_num [evaluate_sell_sc, sellFeeParts, evaluate_fee, buyingFees, sellValueInFiat,
      liftPrice, pdConst, cfgW, sellThreeFees, scHalf, buyW, feeBNB, feeETH, feeADA,
      Op.coin, Op.fees, Op.change, Op.platform, Op.utc_time, Op.remark, Except.map,
      Bind.bind, Except.bind, Pure.pure, Except.pure, Except.isOk, Except.toBool]

/-- C6: when the disposal-value lookup fails with `PriceUnavailable` (and
everything before it succeeded), an unrealized (deadline) evaluation falls
back to a zero sell value and continues, while a realized sell evaluation
propagates the failure: a realized sell value is never silently zeroed. -/
theorem c6_price_unavailable_handling (cfg : Config) (pd : PriceData)
    (op : Op) (sc : SoldCoin) (af : Option ℚ)
    (fp : (ℚ × String × ℚ) × (ℚ × String × ℚ)) (bf c : ℚ)
    (hcoin : op.coin = sc.op.coin)
    (hfp : sellFeeParts pd op.fees (sc.sold / op.change) = .ok fp)
    (hbf : buyingFees pd sc = .ok bf)
    (hc : pd.get_cost_sc sc = some c)
    (hnone : pd.get_part_cost_op op (sc.sold / op.change) = none) :
    ((evaluate_sell_sc cfg pd op sc af .UnrealizedSellReportEntry).isOk = true)
    ∧ (∀ e, evaluate_sell_sc cfg pd op sc af .UnrealizedSellReportEntry = .ok e →
        e.sell_value_in_fiat = 0)
    ∧ evaluate_sell_sc cfg pd op sc af .SellReportEntry = .error .PriceUnavailable := by
  have hsv0 : sellValueInFiat pd op (sc.sold / op.change) .UnrealizedSellReportEntry
      = .ok 0 := by
    simp [sellValueInFiat, hnone]
  have hc2 : liftPrice (pd.get_cost_sc sc) = .ok c := by simp [liftPrice, hc]
  have hok := evaluate_sell_sc_eq_ok cfg pd op sc af .UnrealizedSellReportEntry
    hcoin hfp hbf hc2 hsv0
  refine ⟨by simp [hok, Except.isOk, Except.toBool], ?_, ?_⟩
  · intro e he
    rw [hok] at he
    cases he
    rfl
  · unfold evaluate_sell_sc
    rw [if_neg (by simp [hcoin])]
    simp [hfp, hbf, hc, liftPrice, sellValueInFiat, hnone, Bind.bind, Except.bind]

/-- Witness for C6 at a concrete input: a sell of half of `buyW` under a
lookup that knows every price except the disposal value. -/
theorem c6_price_unavailable_handling_witness :
    ((evaluate_sell_sc cfgW pdNoSellValue sellTwoFees scHalf none
        .UnrealizedSellReportEntry).isOk = true)
    ∧ (∀ e, evaluate_sell_sc cfgW pdNoSellValue sellTwoFees scHalf none
        .UnrealizedSellReportEntry = .ok e → e.sell_value_in_fiat = 0)
    ∧ evaluate_sell_sc cfgW pdNoSellValue sellTwoFees scHalf none
        .SellReportEntry = .error .PriceUnavailable :=
  c6_price_unavailable_handling cfgW pdNoSellValue sellTwoFees scHalf none
    ((5, "BNB", 0), (0, "", 0)) 0 0 rfl
    (by norm_num [sellFeeParts, evaluate_fee, liftPrice, pdNoSellValue, sellTwoFees,
      scHalf, buyW, feeBNB, Op.fees, Op.change, Except.map])
    rfl rfl rfl

/-- C8: fee proration is additive over a partition of a sell.  Evaluating a
sell of amount `A = op.change` against two consumed lots whose amounts sum
to `A` yields report entries whose summed per-fee-coin amounts equal those
of evaluating the same sell against a single consumed lot of amount `A`,
exactly (the second fee coin's amounts are all zero, the code never
populating them). -/
theorem c8_fee_proration_additive (cfg : Config) (pd : PriceData) (op : Op)
    (sc1 sc2 scF : SoldCoin) (af1 af2 afF : Option ℚ)
    (rt1 rt2 rtF : ReportKind) (e1 e2 eF : SellReportEntry)
    (hsum : sc1.sold + sc2.sold = op.change)
    (hF : scF.sold = op.change)
    (h1 : evaluate_sell_sc cfg pd op sc1 af1 rt1 = .ok e1)
    (h2 : evaluate_sell_sc cfg pd op sc2 af2 rt2 = .ok e2)
    (hFe : evaluate_sell_sc cfg pd op scF afF rtF = .ok eF) :
    e1.first_fee_amount + e2.first_fee_amount = eF.first_fee_amount
    ∧ e1.second_fee_amount + e2.second_fee_amount = eF.second_fee_amount := by
  obtain ⟨hco1, fp1, bf1, c1, sv1, hfp1, hbf1, hc1, hsv1, he1⟩ :=
    evaluate_sell_sc_ok_inv h1
  obtain ⟨hco2, fp2, bf2, c2, sv2, hfp2, hbf2, hc2, hsv2, he2⟩ :=
    evaluate_sell_sc_ok_inv h2
  obtain ⟨hcoF, fpF, bfF, cF, svF, hfpF, hbfF, hcF, hsvF, heF⟩ :=
    evaluate_sell_sc_ok_inv hFe
  obtain ⟨ha1, hz1⟩ := sellFeeParts_ok_inv hfp1
  obtain ⟨ha2, hz2⟩ := sellFeeParts_ok_inv hfp2
  obtain ⟨haF, hzF⟩ := sellFeeParts_ok_inv hfpF
  subst he1 he2 heF
  refine ⟨?_, ?_⟩
  · show fp1.1.1 + fp2.1.1 = fpF.1.1
    rw [ha1, ha2, haF]
    cases hf : op.fees with
    | none => simp [feeAmountFirst]
    | some fs =>
      cases fs with
      | nil => simp [feeAmountFirst]
      | cons f rest =>
        show f.change * (sc1.sold / op.change) + f.change * (sc2.sold / op.change)
          = f.change * (scF.sold / op.change)
        rw [← mul_add, div_add_div_same, hsum, hF]
  · show fp1.2.1 + fp2.2.1 = fpF.2.1
    rw [hz1, hz2, hzF]
    norm_num

/-- A consumed lot covering `buyW` entirely. -/
def scFull : SoldCoin := ⟨buyW, 2⟩

/-- The entry produced by evaluating half of `buyW` against `sellTwoFees`
under `pdConst`. -/
def entryHalfW : SellReportEntry :=
  ⟨.SellReportEntry, "binance", "binance", 1, "BTC", ⟨2021, 200⟩, ⟨2021, 100⟩,
    5, "BNB", 0, 0, "", 0, 0, 0, true, "Sonstige Einkünfte", ""⟩

/-- The entry produced by evaluating all of `buyW` against `sellTwoFees`
under `pdConst`. -/
def entryFullW : SellReportEntry :=
  ⟨.SellReportEntry, "binance", "binance", 2, "BTC", ⟨2021, 200⟩, ⟨2021, 100⟩,
    10, "BNB", 0, 0, "", 0, 0, 0, true, "Sonstige Einkünfte", ""⟩

/-- Witness for C8: two half lots of `buyW` against `sellTwoFees` sum to the
full-lot fee amounts. -/
theorem c8_fee_proration_additive_witness :
    entryHalfW.first_fee_amount + entryHalfW.first_fee_amount
      = entryFullW.first_fee_amount
    ∧ entryHalfW.second_fee_amount + entryHalfW.second_fee_amount
      = entryFullW.second_fee_amount :=
  c8_fee_proration_additive cfgW pdConst sellTwoFees scHalf scHalf scFull
    none none none .SellReportEntry .SellReportEntry .SellReportEntry
    entryHalfW entryHalfW entryFullW
    (by norm_num [scHalf, sellTwoFees, Op.change])
    (by norm_num [scFull, sellTwoFees, Op.change])
    (by norm_num [evaluate_sell_sc, sellFeeParts, evaluate_fee, buyingFees,
      sellValueInFiat, liftPrice, pdConst, cfgW, sellTwoFees, scHalf, buyW, feeBNB,
      feeETH, entryHalfW, Op.coin, Op.fees, Op.change, Op.platform, Op.utc_time,
      Op.remark, Except.map, Bind.bind, Except.bind, Pure.pure, Except.pure])
    (by norm_num [evaluate_sell_sc, sellFeeParts, evaluate_fee, buyingFees,
      sellValueInFiat, liftPrice, pdConst, cfgW, sellTwoFees, scHalf, buyW, feeBNB,
      feeETH, entryHalfW, Op.coin, Op.fees, Op.change, Op.platform, Op.utc_time,
      Op.remark, Except.map, Bind.bind, Except.bind, Pure.pure, Except.pure])
    (by norm_num [evaluate_sell_sc, sellFeeParts, evaluate_fee, buyingFees,
      sellValueInFiat, liftPrice, pdConst, cfgW, sellTwoFees, scFull, buyW, feeBNB,
      feeETH, entryFullW, Op.coin, Op.fees, Op.change, Op.platform, Op.utc_time,
      Op.remark, Except.map, Bind.bind, Except.bind, Pure.pure, Except.pure])

/-- An original purchase of 1 BTC on the source platform. -/
def buyA : Op := .mk .Buy "kraken" "BTC" 1 ⟨2021, 10⟩ none none [] ""

/-- A second original purchase of 1 BTC on the source platform. -/
def buyB : Op := .mk .Buy "kraken" "BTC" 1 ⟨2021, 20⟩ none none [] ""

/-- A withdrawal of 1 BTC that consumed half of `buyA` and half of `buyB`
(back-annotated `withdrawn_coins`). -/
def wd0 : Op :=
  .mk .Withdrawal "kraken" "BTC" 1 ⟨2021, 50⟩ none none [(buyA, 1/2), (buyB, 1/2)] ""

/-- The deposit of the withdrawn 1 BTC on the destination platform, linked
to `wd0`. -/
def dep0 : Op := .mk .Deposit "binance" "BTC" 1 ⟨2021, 60⟩ none (some wd0) [] ""

/-- A sell of the 1 deposited BTC on the destination platform. -/
def sellLinked : Op := .mk .Sell "binance" "BTC" 1 ⟨2021, 200⟩ none none [] ""

/-- The deposit lot consumed entirely by `sellLinked`. -/
def scDepW : SoldCoin := ⟨dep0, 1⟩

/-- C4: a consumed lot originating from a Deposit linked to a Withdrawal is
evaluated by recursing through the link: the evaluation is exactly the fold
of `evaluate_sell_sc` over the withdrawal's consumed lots pro-rated by
`sc.sold / sc.op.change`, each passed a zero additional fee (the implicit
transfer fee is computed but its fiat conversion is disabled in the source);
and every successful single-lot evaluation takes its acquisition timestamp
and its cost basis from the originating lot of the consumed coin it is
given, so they come from the original purchase. -/
theorem c4_linked_deposit_recursion (cfg : Config) (pd : PriceData) (op : Op)
    (sc : SoldCoin) (wd : Op)
    (hk : sc.op.kind = .Deposit)
    (hl : sc.op.link = some wd)
    (hge : sc.op.change ≤ wd.change) :
    evalSoldCoin cfg pd op sc =
      (withdrawnCoinsShare wd (sc.sold / sc.op.change)).foldlM
        (fun acc wsc =>
          (evaluate_sell_sc cfg pd op wsc (some 0) .SellReportEntry).map
            (fun e => acc ++ [e])) []
    ∧ withdrawnCoinsShare wd (sc.sold / sc.op.change)
        = wd.withdrawn_coins.map
            (fun w => ⟨w.op, w.sold * (sc.sold / sc.op.change)⟩)
    ∧ (∀ wsc af rt e, evaluate_sell_sc cfg pd op wsc af rt = .ok e →
        e.buy_utc_time = wsc.op.utc_time ∧
        ∃ bf c, buyingFees pd wsc = .ok bf ∧ pd.get_cost_sc wsc = some c ∧
          e.buy_value_in_fiat = c + bf + af.getD 0) := by
  refine ⟨?_, rfl, ?_⟩
  · obtain ⟨o, s⟩ := sc
    obtain ⟨k, pf, co, ch, t, fs, l, w, r⟩ := o
    simp only [Op.kind] at hk
    simp only [Op.link] at hl
    simp only [Op.change] at hge
    subst hk hl
    simp only [evalSoldCoin, Op.kind, Op.link, Op.change]
    rw [if_neg (not_lt.mpr hge)]
  · intro wsc af rt e he
    obtain ⟨hco, fp, bf, c, sv, hfp, hbf, hc, hsv, hee⟩ :=
      evaluate_sell_sc_ok_inv he
    subst hee
    exact ⟨rfl, bf, c, hbf, liftPrice_ok_inv hc, rfl⟩

/-- Witness for C4: `sellLinked` consuming the linked deposit lot `scDepW`
recurses through `wd0` to the original purchases `buyA` and `buyB`. -/
theorem c4_linked_deposit_recursion_witness :
    evalSoldCoin cfgW pdConst sellLinked scDepW =
      (withdrawnCoinsShare wd0 (scDepW.sold / scDepW.op.change)).foldlM
        (fun acc wsc =>
          (evaluate_sell_sc cfgW pdConst sellLinked wsc (some 0) .SellReportEntry).map
            (fun e => acc ++ [e])) []
    ∧ withdrawnCoinsShare wd0 (scDepW.sold / scDepW.op.change)
        = wd0.withdrawn_coins.map
            (fun w => ⟨w.op, w.sold * (scDepW.sold / scDepW.op.change)⟩)
    ∧ (∀ wsc af rt e, evaluate_sell_sc cfgW pdConst sellLinked wsc af rt = .ok e →
        e.buy_utc_time = wsc.op.utc_time ∧
        ∃ bf c, buyingFees pdConst wsc = .ok bf ∧ pdConst.get_cost_sc wsc = some c ∧
          e.buy_value_in_fiat = c + bf + af.getD 0) :=
  c4_linked_deposit_recursion cfgW pdConst sellLinked scDepW wd0 rfl rfl
    (by norm_num [scDepW, dep0, wd0, Op.change])

/-- C5: processing a linked Deposit adds it to the balance and emits exactly
one Transfer report entry whose first fee is `link.change − deposit.change`
of the deposited coin; an unlinked Deposit adds to the balance and emits no
entry; and the invariant `Withdrawal.change ≥ Deposit.change` is asserted
when a sell consumes a linked deposit lot — its violation aborts the run. -/
theorem c5_deposit_processing (cfg : Config) (pd : PriceData)
    (st : TaxmanState) (op wd : Op) (v : ℚ) (sop : Op) (sc : SoldCoin) :
    (op.kind = .Deposit → op.link = some wd → op.coin = wd.coin →
      pd.get_cost_op op = some v →
      evaluate_taxation_GERMANY cfg pd st op = .ok
        { add_to_balance cfg st op with tax_report_entries :=
            (add_to_balance cfg st op).tax_report_entries ++
              [.transfer ⟨op.platform, wd.platform, op.change, op.coin,
                op.utc_time, wd.utc_time, wd.change - op.change, op.coin, v,
                op.remark⟩] })
    ∧ (op.kind = .Deposit → op.link = none →
      evaluate_taxation_GERMANY cfg pd st op = .ok (add_to_balance cfg st op))
    ∧ (sc.op.kind = .Deposit → sc.op.link = some wd → wd.change < sc.op.change →
      evalSoldCoin cfg pd sop sc = .error
        (.AssertionFailed "Withdrawal must be equal or greater than the deposited amount.")) := by
  refine ⟨?_, ?_, ?_⟩
  · intro hk hl hcoin hv
    obtain ⟨k, pf, co, ch, t, fs, l, w, r⟩ := op
    simp only [Op.kind] at hk
    simp only [Op.link] at hl
    simp only [Op.coin] at hcoin
    subst hk hl
    simp only [evaluate_taxation_GERMANY, Op.kind, Op.link]
    rw [if_neg (by simp [Op.coin, hcoin])]
    simp [liftPrice, Op.coin, hv, Except.map]
  · intro hk hl
    obtain ⟨k, pf, co, ch, t, fs, l, w, r⟩ := op
    simp only [Op.kind] at hk
    simp only [Op.link] at hl
    subst hk hl
    simp [evaluate_taxation_GERMANY, Op.kind, Op.link]
  · intro hk hl hlt
    obtain ⟨o, s⟩ := sc
    obtain ⟨k, pf, co, ch, t, fs, l, w, r⟩ := o
    simp only [Op.kind] at hk
    simp only [Op.link] at hl
    simp only [Op.change] at hlt
    subst hk hl
    simp only [evalSoldCoin, Op.kind, Op.link, Op.change]
    rw [if_pos hlt]

/-- A deposit with no link to a withdrawal. -/
def depNoLink : Op := .mk .Deposit "binance" "BTC" 1 ⟨2021, 60⟩ none none [] ""

/-- A deposit claiming more coins than its linked withdrawal moved
(violating the transfer invariant). -/
def depBad : Op := .mk .Deposit "binance" "BTC" 2 ⟨2021, 60⟩ none (some wd0) [] ""

/-- Witness for C5: the linked deposit `dep0`, the unlinked `depNoLink`, and
a sell consuming the invariant-violating `depBad`. -/
theorem c5_deposit_processing_witness :
    (evaluate_taxation_GERMANY cfgW pdConst initialState dep0 = .ok
      { add_to_balance cfgW initialState dep0 with tax_report_entries :=
          (add_to_balance cfgW initialState dep0).tax_report_entries ++
            [.transfer ⟨dep0.platform, wd0.platform, dep0.change, dep0.coin,
              dep0.utc_time, wd0.utc_time, wd0.change - dep0.change, dep0.coin,
              0, dep0.remark⟩] })
    ∧ (evaluate_taxation_GERMANY cfgW pdConst initialState depNoLink
        = .ok (add_to_balance cfgW initialState depNoLink))
    ∧ (evalSoldCoin cfgW pdConst sellLinked ⟨depBad, 1⟩ = .error
        (.AssertionFailed "Withdrawal must be equal or greater than the deposited amount.")) :=
  ⟨(c5_deposit_processing cfgW pdConst initialState dep0 wd0 0 sellLinked
      ⟨depBad, 1⟩).1 rfl rfl rfl rfl,
    (c5_deposit_processing cfgW pdConst initialState depNoLink wd0 0 sellLinked
      ⟨depBad, 1⟩).2.1 rfl rfl,
    (c5_deposit_processing cfgW pdConst initialState dep0 wd0 0 sellLinked
      ⟨depBad, 1⟩).2.2 rfl rfl
      (by norm_num [wd0, depBad, Op.change])⟩

theorem remove_from_balance_ok_inv {cfg : Config} {st : TaxmanState} {op : Op}
    {sold : List SoldCoin} {st1 : TaxmanState}
    (h : remove_from_balance cfg st op = .ok (sold, st1)) :
    st1.tax_report_entries = st.tax_report_entries
    ∧ st1.portfolio_at_deadline = st.portfolio_at_deadline := by
  unfold remove_from_balance at h
  split at h
  · exact absurd h (by simp)
  · cases h
    exact ⟨rfl, rfl⟩

theorem remove_fees_from_balance_ok_inv {cfg : Config} {st : TaxmanState}
    {fees : Option (List Fee)} {st2 : TaxmanState}
    (h : remove_fees_from_balance cfg st fees = .ok st2) :
    st2.tax_report_entries = st.tax_report_entries
    ∧ st2.portfolio_at_deadline = st.portfolio_at_deadline := by
  cases fees with
  | none =>
    cases h
    exact ⟨rfl, rfl⟩
  | some fs =>
    have key : ∀ (l : List Fee) (s s2 : TaxmanState),
        l.foldlM (removeFeeStep cfg) s = .ok s2 →
        s2.tax_report_entries = s.tax_report_entries
        ∧ s2.portfolio_at_deadline = s.portfolio_at_deadline := by
      intro l
      induction l with
      | nil =>
        intro s s2 hh
        cases hh
        exact ⟨rfl, rfl⟩
      | cons f rest ih =>
        intro s s2 hh
        rw [List.foldlM_cons] at hh
        obtain ⟨s1, hs1, hrest⟩ := exbind_ok_inv hh
        have h1 : s1.tax_report_entries = s.tax_report_entries
            ∧ s1.portfolio_at_deadline = s.portfolio_at_deadline := by
          unfold removeFeeStep at hs1
          split at hs1
          · exact absurd hs1 (by simp)
          · cases hs1
            exact ⟨rfl, rfl⟩
        have h2 := ih s1 s2 hrest
        exact ⟨h1.1 ▸ h2.1, h1.2 ▸ h2.2⟩
    exact key fs st st2 h

/-- C10: membership in the tax period is calendar-year equality of the
operation's timestamp with the configured tax year; the liquidation deadline
is the minimum of the current time and the last second of that calendar
year; and a Sell from an earlier year mutates the balances (lots and fees
removed) yet appends no report entry. -/
theorem c10_tax_period_semantics (cfg : Config) (pd : PriceData)
    (st : TaxmanState) (op : Op) (sold : List SoldCoin) (st1 st2 : TaxmanState) :
    (in_tax_year cfg op = true ↔ op.utc_time.year = cfg.TAX_YEAR)
    ∧ TAX_DEADLINE cfg = tsMin cfg.now (lastSecondOfYear cfg.TAX_YEAR)
    ∧ (op.kind = .Sell → op.utc_time.year < cfg.TAX_YEAR →
        remove_from_balance cfg st op = .ok (sold, st1) →
        remove_fees_from_balance cfg st1 op.fees = .ok st2 →
        evaluate_taxation_GERMANY cfg pd st op = .ok st2
        ∧ st2.tax_report_entries = st.tax_report_entries) := by
  refine ⟨by simp [in_tax_year], rfl, ?_⟩
  intro hk hlt h1 h2
  have hyear : in_tax_year cfg op = false := by
    simp [in_tax_year]
    omega
  constructor
  · obtain ⟨k, pf, co, ch, t, fs, l, w, r⟩ := op
    simp only [Op.kind] at hk
    subst hk
    simp only [evaluate_taxation_GERMANY, Op.kind, Bind.bind]
    rw [h1]
    simp only [Except.bind]
    rw [h2]
    simp only [Except.bind]
    rw [if_neg (by simp [hyear])]
  · have e1 := remove_from_balance_ok_inv h1
    have e2 := remove_fees_from_balance_ok_inv h2
    rw [e2.1, e1.1]

/-- A purchase in 2020, before the configured tax year. -/
def buyOld : Op := .mk .Buy "binance" "BTC" 1 ⟨2020, 5⟩ none none [] ""

/-- A sell of that coin later in 2020, still before the tax year. -/
def sellOld : Op := .mk .Sell "binance" "BTC" 1 ⟨2020, 10⟩ none none [] ""

/-- The state holding the 2020 lot. -/
def stOld : TaxmanState := add_to_balance cfgW initialState buyOld

/-- The state after the 2020 sell consumed the lot. -/
def stAfterOld : TaxmanState := ⟨[(("", "BTC"), [])], [], []⟩

/-- Witness for C10: selling the 2020 lot under the 2021 configuration
removes it from the balance but appends no report entry. -/
theorem c10_tax_period_semantics_witness :
    (in_tax_year cfgW sellOld = true ↔ sellOld.utc_time.year = cfgW.TAX_YEAR)
    ∧ TAX_DEADLINE cfgW = tsMin cfgW.now (lastSecondOfYear cfgW.TAX_YEAR)
    ∧ (evaluate_taxation_GERMANY cfgW pdConst stOld sellOld = .ok stAfterOld
        ∧ stAfterOld.tax_report_entries = stOld.tax_report_entries) :=
  ⟨(c10_tax_period_semantics cfgW pdConst stOld sellOld [⟨buyOld, 1⟩]
      stAfterOld stAfterOld).1,
    (c10_tax_period_semantics cfgW pdConst stOld sellOld [⟨buyOld, 1⟩]
      stAfterOld stAfterOld).2.1,
    (c10_tax_period_semantics cfgW pdConst stOld sellOld [⟨buyOld, 1⟩]
      stAfterOld stAfterOld).2.2 rfl (by norm_num [sellOld, Op.utc_time, cfgW])
      (by norm_num [remove_from_balance, queueRemove, consume, getBalance,
        setBalance, balKey, cfgW, stOld, initialState, add_to_balance, buyOld,
        sellOld, stAfterOld, Op.platform, Op.coin, Op.change, List.find?])
      (by norm_num [remove_fees_from_balance, sellOld, Op.fees])⟩

/-- A consumed lot that is not a withdrawal-linked Deposit yields exactly
one report entry when its evaluation succeeds. -/
theorem evalSoldCoin_nonlinked_singleton {cfg : Config} {pd : PriceData}
    {op : Op} {sc : SoldCoin} {l : List SellReportEntry}
    (hnl : ¬(sc.op.kind = .Deposit ∧ sc.op.link.isSome))
    (h : evalSoldCoin cfg pd op sc = .ok l) : l.length = 1 := by
  unfold evalSoldCoin at h
  split at h
  · next hk hl =>
    exact absurd ⟨hk, by simp [hl]⟩ hnl
  · obtain ⟨e, _, hl2⟩ := exmap_ok_inv h
    simp [← hl2]

/-- The entry-accumulating fold of `Taxman.evaluate_sell` yields one entry
per consumed lot when no lot is a withdrawal-linked Deposit. -/
theorem evaluate_sell_fold_length (cfg : Config) (pd : PriceData) (op : Op) :
    ∀ (scs : List SoldCoin) (acc es : List SellReportEntry),
    scs.foldlM (fun acc sc =>
      (evalSoldCoin cfg pd op sc).map (fun es => acc ++ es)) acc = .ok es →
    (∀ sc ∈ scs, ¬(sc.op.kind = .Deposit ∧ sc.op.link.isSome)) →
    es.length = acc.length + scs.length := by
  intro scs
  induction scs with
  | nil =>
    intro acc es h _
    cases h
    simp
  | cons sc rest ih =>
    intro acc es h hnl
    rw [List.foldlM_cons] at h
    obtain ⟨l, hl, hrest⟩ := exbind_ok_inv h
    obtain ⟨l0, hl0, hl2⟩ := exmap_ok_inv hl
    have h1 : l0.length = 1 :=
      evalSoldCoin_nonlinked_singleton (hnl sc (by simp)) hl0
    have h2 := ih l es hrest (fun x hx => hnl x (by simp [hx]))
    subst hl2
    simp only [List.length_append, h1] at h2
    simp [h2, List.length_cons]
    omega

/-- C1, counterexample to the claim as stated: a Sell whose single
Consumed-Lot is a Deposit linked to a Withdrawal that consumed two original
lots emits two report entries for that one Consumed-Lot — not one entry per
Consumed-Lot. -/
theorem c1_one_entry_per_lot_counterexample :
    (evaluate_sell cfgW pdConst sellLinked [scDepW]).map List.length
      = .ok 2
    ∧ [scDepW].length = 1 := by
  constructor
  · norm_num [evaluate_sell, evalSoldCoin, evaluate_sell_sc, sellFeeParts,
      evaluate_fee, buyingFees, sellValueInFiat, liftPrice, withdrawnCoinsShare,
      in_tax_year, dsum, pdConst, cfgW, sellLinked, dep0, wd0, buyA, buyB, scDepW,
      Op.coin, Op.fees, Op.change, Op.platform, Op.utc_time, Op.remark, Op.kind,
      Op.link, Op.withdrawn_coins, Except.map, Bind.bind, Except.bind,
      Pure.pure, Except.pure, List.foldlM]
    rw [if_neg (by decide)]
    rfl
  · rfl

/-- C1, amended: a Sell processed by the state machine removes the matched
lots and the declared fees from the balance unconditionally; report entries
are appended if and only if the sold coin is not the reporting fiat currency
and the operation falls inside the tax period (a fiat or out-of-period Sell
still mutates the balances but appends nothing); and when the evaluation
succeeds it emits exactly one entry per Consumed-Lot, provided no Consumed-
Lot is a Deposit linked to a Withdrawal (such a lot instead emits one entry
per pro-rated withdrawn lot, per C4). -/
theorem c1_sell_transition (cfg : Config) (pd : PriceData) (st : TaxmanState)
    (op : Op) (sold : List SoldCoin) (st1 st2 : TaxmanState)
    (hk : op.kind = .Sell)
    (h1 : remove_from_balance cfg st op = .ok (sold, st1))
    (h2 : remove_fees_from_balance cfg st1 op.fees = .ok st2) :
    evaluate_taxation_GERMANY cfg pd st op =
      (if op.coin ≠ cfg.FIAT ∧ in_tax_year cfg op then
        (evaluate_sell cfg pd op sold).map (fun es =>
          { st2 with tax_report_entries :=
              st2.tax_report_entries ++ es.map TaxReportEntry.sell })
      else .ok st2)
    ∧ (∀ es, evaluate_sell cfg pd op sold = .ok es →
        (∀ sc ∈ sold, ¬(sc.op.kind = .Deposit ∧ sc.op.link.isSome)) →
        es.length = sold.length) := by
  constructor
  · obtain ⟨k, pf, co, ch, t, fs, l, w, r⟩ := op
    simp only [Op.kind] at hk
    subst hk
    simp only [evaluate_taxation_GERMANY, Op.kind, Bind.bind]
    rw [h1]
    simp only [Except.bind]
    rw [h2]
  · intro es hes hnl
    unfold evaluate_sell at hes
    split at hes
    · exact absurd hes (by simp)
    · split at hes
      · exact absurd hes (by simp)
      · split at hes
        · exact absurd hes (by simp)
        · have := evaluate_sell_fold_length cfg pd op sold [] es hes hnl
          simpa using this

/-- A sell of the whole `buyW` lot, declaring no fees. -/
def sellNoFees : Op := .mk .Sell "binance" "BTC" 2 ⟨2021, 200⟩ none none [] ""

/-- The state holding the `buyW` lot. -/
def stWithBuy : TaxmanState := add_to_balance cfgW initialState buyW

/-- The state after `sellNoFees` consumed the `buyW` lot. -/
def stSoldOut : TaxmanState := ⟨[(("", "BTC"), [])], [], []⟩

/-- Witness for the amended C1 at a concrete input: selling the whole
`buyW` lot in the tax year. -/
theorem c1_sell_transition_witness :
    evaluate_taxation_GERMANY cfgW pdConst stWithBuy sellNoFees =
      (if sellNoFees.coin ≠ cfgW.FIAT ∧ in_tax_year cfgW sellNoFees then
        (evaluate_sell cfgW pdConst sellNoFees [⟨buyW, 2⟩]).map (fun es =>
          { stSoldOut with tax_report_entries :=
              stSoldOut.tax_report_entries ++ es.map TaxReportEntry.sell })
      else .ok stSoldOut)
    ∧ (∀ es, evaluate_sell cfgW pdConst sellNoFees [⟨buyW, 2⟩] = .ok es →
        (∀ sc ∈ [(⟨buyW, 2⟩ : SoldCoin)],
          ¬(sc.op.kind = .Deposit ∧ sc.op.link.isSome)) →
        es.length = [(⟨buyW, 2⟩ : SoldCoin)].length) :=
  c1_sell_transition cfgW pdConst stWithBuy sellNoFees [⟨buyW, 2⟩]
    stSoldOut stSoldOut rfl
    (by norm_num [remove_from_balance, queueRemove, consume, getBalance,
      setBalance, balKey, cfgW, stWithBuy, initialState, add_to_balance, buyW,
      sellNoFees, stSoldOut, Op.platform, Op.coin, Op.change, List.find?])
    (by norm_num [remove_fees_from_balance, sellNoFees, Op.fees])

/-- Adding to a portfolio bucket increments exactly that bucket's lookup. -/
theorem portfolioGet_portfolioAdd (p : Portfolio) (platform coin : String)
    (a : ℚ) :
    portfolioGet (portfolioAdd p platform coin a) platform coin
      = portfolioGet p platform coin + a := by
  induction p with
  | nil => simp [portfolioAdd, portfolioGet, List.find?]
  | cons e rest ih =>
    by_cases hb : (e.1 == (platform, coin)) = true
    · simp [portfolioAdd, portfolioGet, hb, List.find?]
    · simp only [portfolioAdd, hb, Bool.false_eq_true, if_false]
      simp [portfolioGet, List.find?, hb] at ih ⊢
      exact ih

/-- C7: once the operation stream is exhausted, the engine folds the
per-queue liquidation over every balance; each queue first passes the
sanity check (fatal `NegativeBalance` on a negative lot), is then fully
drained by `remove_all`, and every resulting consumed lot is added to the
portfolio snapshot under its originating platform and coin and evaluated as
a synthetic fee-less Sell dated at the tax deadline, emitting an
`UnrealizedSellReportEntry`. -/
theorem c7_deadline_liquidation (cfg : Config) (pd : PriceData)
    (ops : List Op) (stm st : TaxmanState) (k : String × String)
    (lots : List Lot) (sc : SoldCoin) (st1 st2 : TaxmanState) :
    (ops.all (fun op => decide (op.utc_time.year ≤ cfg.TAX_YEAR)) = true →
      processOperations cfg pd (sort_operations ops) initialState = .ok stm →
      evaluate_taxation cfg pd ops
        = stm.balances.foldlM (liquidateBalance cfg pd) stm)
    ∧ (hasNegativeLot lots = true →
        liquidateBalance cfg pd st (k, lots) = .error .NegativeBalance)
    ∧ (hasNegativeLot lots = false →
        liquidateBalance cfg pd st (k, lots)
          = (remove_all lots).foldlM (liquidateSoldCoin cfg pd)
              { st with balances := (setBalance st.balances k []) })
    ∧ (liquidateSoldCoin cfg pd st1 sc = .ok st2 →
        ∃ e, evaluate_sell_sc cfg pd (unrealized_sell_op cfg sc) sc none
            .UnrealizedSellReportEntry = .ok e
          ∧ st2.tax_report_entries = st1.tax_report_entries ++ [.sell e]
          ∧ e.kind = .UnrealizedSellReportEntry
          ∧ (unrealized_sell_op cfg sc).fees = none
          ∧ (unrealized_sell_op cfg sc).utc_time = TAX_DEADLINE cfg
          ∧ portfolioGet st2.portfolio_at_deadline sc.op.platform sc.op.coin
              = portfolioGet st1.portfolio_at_deadline sc.op.platform sc.op.coin
                + sc.sold) := by
  refine ⟨?_, ?_, ?_, ?_⟩
  · intro hall hpo
    unfold evaluate_taxation
    rw [if_neg (by simp [hall])]
    simp only [Bind.bind]
    rw [hpo]
    rfl
  · intro hneg
    unfold liquidateBalance
    rw [if_pos hneg]
  · intro hpos
    unfold liquidateBalance
    rw [if_neg (by simp [hpos])]
  · intro h
    unfold liquidateSoldCoin at h
    obtain ⟨e, he, hst2⟩ := exmap_ok_inv h
    obtain ⟨hco, fp, bf, c, sv, hfp, hbf, hc, hsv, hee⟩ :=
      evaluate_sell_sc_ok_inv he
    refine ⟨e, he, ?_, ?_, rfl, rfl, ?_⟩
    · rw [← hst2]
    · rw [hee]
    · rw [← hst2]
      exact portfolioGet_portfolioAdd _ _ _ _

/-- The state after liquidating the lot `⟨buyW, 2⟩` from a fresh state. -/
def stLiqW : TaxmanState :=
  ⟨[], [.sell ⟨.UnrealizedSellReportEntry, "binance", "binance", 2, "BTC",
    ⟨2021, 1000000⟩, ⟨2021, 100⟩, 0, "", 0, 0, "", 0, 0, 0, true,
    "Sonstige Einkünfte", ""⟩], [(("binance", "BTC"), 2)]⟩

/-- Witness for C7 at concrete inputs: a one-buy run hands over to the
per-balance fold; a negative lot aborts; a clean queue is drained and each
drained lot yields an unrealized entry and a portfolio increment. -/
theorem c7_deadline_liquidation_witness :
    (evaluate_taxation cfgW pdConst [buyW]
      = stWithBuy.balances.foldlM (liquidateBalance cfgW pdConst) stWithBuy)
    ∧ (liquidateBalance cfgW pdConst initialState (("", "BTC"), [⟨buyW, -1⟩])
        = .error .NegativeBalance)
    ∧ (liquidateBalance cfgW pdConst initialState (("", "BTC"), [⟨buyW, 2⟩])
        = (remove_all [⟨buyW, 2⟩]).foldlM (liquidateSoldCoin cfgW pdConst)
            { initialState with balances :=
                (setBalance initialState.balances ("", "BTC") []) })
    ∧ (∃ e, evaluate_sell_sc cfgW pdConst (unrealized_sell_op cfgW ⟨buyW, 2⟩)
          ⟨buyW, 2⟩ none .UnrealizedSellReportEntry = .ok e
        ∧ stLiqW.tax_report_entries = initialState.tax_report_entries ++ [.sell e]
        ∧ e.kind = .UnrealizedSellReportEntry
        ∧ (unrealized_sell_op cfgW ⟨buyW, 2⟩).fees = none
        ∧ (unrealized_sell_op cfgW ⟨buyW, 2⟩).utc_time = TAX_DEADLINE cfgW
        ∧ portfolioGet stLiqW.portfolio_at_deadline
            (⟨buyW, 2⟩ : SoldCoin).op.platform (⟨buyW, 2⟩ : SoldCoin).op.coin
            = portfolioGet initialState.portfolio_at_deadline
                (⟨buyW, 2⟩ : SoldCoin).op.platform (⟨buyW, 2⟩ : SoldCoin).op.coin
              + (⟨buyW, 2⟩ : SoldCoin).sold) :=
  ⟨(c7_deadline_liquidation cfgW pdConst [buyW] stWithBuy initialState
      ("", "BTC") [] ⟨buyW, 2⟩ initialState stLiqW).1 rfl rfl,
    (c7_deadline_liquidation cfgW pdConst [buyW] stWithBuy initialState
      ("", "BTC") [⟨buyW, -1⟩] ⟨buyW, 2⟩ initialState stLiqW).2.1
      (by norm_num [hasNegativeLot]),
    (c7_deadline_liquidation cfgW pdConst [buyW] stWithBuy initialState
      ("", "BTC") [⟨buyW, 2⟩] ⟨buyW, 2⟩ initialState stLiqW).2.2.1
      (by norm_num [hasNegativeLot]),
    (c7_deadline_liquidation cfgW pdConst [buyW] stWithBuy initialState
      ("", "BTC") [⟨buyW, 2⟩] ⟨buyW, 2⟩ initialState stLiqW).2.2.2
      (by norm_num [liquidateSoldCoin, portfolioAdd, unrealized_sell_op,
        TAX_DEADLINE, tsMin, tsLe, lastSecondOfYear, yearEndOfs, stLiqW,
        evaluate_sell_sc, sellFeeParts, buyingFees, sellValueInFiat, liftPrice,
        pdConst, cfgW, buyW, initialState, Op.coin, Op.fees, Op.change,
        Op.platform, Op.utc_time, Op.remark, Except.map, Bind.bind, Except.bind,
        Pure.pure, Except.pure])⟩

/-- An operation list sorted chronologically. -/
def sortedByTime (l : List Op) : Prop :=
  l.Pairwise (fun a b => tsLe a.utc_time b.utc_time = true)

theorem tsLe_total (a b : Timestamp) : tsLe a b = true ∨ tsLe b a = true := by
  simp only [tsLe, Bool.or_eq_true, Bool.and_eq_true, decide_eq_true_eq]
  omega

theorem tsLe_trans {a b c : Timestamp} (h1 : tsLe a b = true)
    (h2 : tsLe b c = true) : tsLe a c = true := by
  simp only [tsLe, Bool.or_eq_true, Bool.and_eq_true, decide_eq_true_eq] at h1 h2 ⊢
  omega

theorem mem_insertByTime {z x : Op} : ∀ {ys : List Op},
    z ∈ insertByTime ys x ↔ z ∈ ys ∨ z = x := by
  intro ys
  induction ys with
  | nil => simp [insertByTime]
  | cons y ys ih =>
    simp only [insertByTime]
    split
    · simp only [List.mem_cons, ih]
      tauto
    · simp only [List.mem_cons]
      tauto

theorem pairwise_insertByTime {ys : List Op} {x : Op} (h : sortedByTime ys) :
    sortedByTime (insertByTime ys x) := by
  induction ys with
  | nil => simp [insertByTime, sortedByTime]
  | cons y ys ih =>
    rcases List.pairwise_cons.mp h with ⟨hy, hys⟩
    simp only [insertByTime]
    split
    · next hle =>
      refine List.pairwise_cons.mpr ⟨?_, ih hys⟩
      intro z hz
      rcases mem_insertByTime.mp hz with hz | rfl
      · exact hy z hz
      · exact hle
    · next hnle =>
      have hxy : tsLe x.utc_time y.utc_time = true := by
        rcases tsLe_total y.utc_time x.utc_time with hyx | hxy
        · exact absurd hyx hnle
        · exact hxy
      refine List.pairwise_cons.mpr ⟨?_, h⟩
      intro z hz
      rcases List.mem_cons.mp hz with rfl | hz
      · exact hxy
      · exact tsLe_trans hxy (hy z hz)

theorem sortedByTime_sort_operations (ops : List Op) :
    sortedByTime (sort_operations ops) := by
  suffices h : ∀ (l acc : List Op), sortedByTime acc →
      sortedByTime (l.foldl insertByTime acc) from
    h ops [] (by simp [sortedByTime])
  intro l
  induction l with
  | nil => exact fun acc h => h
  | cons x xs ih => exact fun acc h => ih _ (pairwise_insertByTime h)

theorem perm_insertByTime (ys : List Op) (x : Op) :
    (insertByTime ys x).Perm (x :: ys) := by
  induction ys with
  | nil => exact List.Perm.refl _
  | cons y ys ih =>
    simp only [insertByTime]
    split
    · exact (List.Perm.cons y ih).trans (List.Perm.swap x y ys)
    · exact List.Perm.refl _

theorem sort_operations_perm (ops : List Op) :
    (sort_operations ops).Perm ops := by
  suffices h : ∀ (l acc : List Op), (l.foldl insertByTime acc).Perm (acc ++ l) by
    simpa using h ops []
  intro l
  induction l with
  | nil => intro acc; simp
  | cons x xs ih =>
    intro acc
    simp only [List.foldl_cons]
    refine (ih (insertByTime acc x)).trans ?_
    refine ((perm_insertByTime acc x).append_right xs).trans ?_
    exact List.perm_middle.symm

/-- C9: an input containing any operation timestamped after the tax year
makes the engine fail fast with `PostDeadlineOperation` before touching any
state; otherwise the validation passes, the engine processes exactly the
sorted stream (then liquidates), and the sorted stream is a chronologically
ordered permutation of the input. -/
theorem c9_post_deadline_validation (cfg : Config) (pd : PriceData)
    (ops : List Op) :
    ((∃ op ∈ ops, cfg.TAX_YEAR < op.utc_time.year) →
      evaluate_taxation cfg pd ops = .error .PostDeadlineOperation)
    ∧ ((∀ op ∈ ops, op.utc_time.year ≤ cfg.TAX_YEAR) →
      evaluate_taxation cfg pd ops
        = (processOperations cfg pd (sort_operations ops) initialState).bind
            (fun st => st.balances.foldlM (liquidateBalance cfg pd) st))
    ∧ sortedByTime (sort_operations ops)
    ∧ (sort_operations ops).Perm ops := by
  refine ⟨?_, ?_, sortedByTime_sort_operations ops, sort_operations_perm ops⟩
  · intro hbad
    unfold evaluate_taxation
    rw [if_pos]
    simp only [List.all_eq_true, decide_eq_true_eq]
    push_neg
    obtain ⟨op, hmem, hgt⟩ := hbad
    exact ⟨op, hmem, by omega⟩
  · intro hok
    unfold evaluate_taxation
    rw [if_neg]
    · rfl
    · simp only [List.all_eq_true, decide_eq_true_eq, not_not]
      exact hok

/-- A buy timestamped in 2022, after the 2021 tax year. -/
def opLate : Op := .mk .Buy "binance" "BTC" 1 ⟨2022, 5⟩ none none [] ""

/-- Witness for C9: a post-deadline operation aborts; the two-operation 2021
ledger (given out of order) passes validation and is handed over sorted. -/
theorem c9_post_deadline_validation_witness :
    (evaluate_taxation cfgW pdConst [opLate] = .error .PostDeadlineOperation)
    ∧ (evaluate_taxation cfgW pdConst [sellNoFees, buyW]
        = (processOperations cfgW pdConst (sort_operations [sellNoFees, buyW])
            initialState).bind
            (fun st => st.balances.foldlM (liquidateBalance cfgW pdConst) st))
    ∧ sortedByTime (sort_operations [sellNoFees, buyW])
    ∧ (sort_operations [sellNoFees, buyW]).Perm [sellNoFees, buyW] :=
  ⟨(c9_post_deadline_validation cfgW pdConst [opLate]).1
      ⟨opLate, by simp, by norm_num [opLate, Op.utc_time, cfgW]⟩,
    (c9_post_deadline_validation cfgW pdConst [sellNoFees, buyW]).2.1
      (by
        intro op hop
        rcases List.mem_cons.mp hop with rfl | hop
        · norm_num [sellNoFees, Op.utc_time, cfgW]
        · rcases List.mem_cons.mp hop with rfl | hop
          · norm_num [buyW, Op.utc_time, cfgW]
          · cases hop),
    (c9_post_deadline_validation cfgW pdConst [sellNoFees, buyW]).2.2.1,
    (c9_post_deadline_validation cfgW pdConst [sellNoFees, buyW]).2.2.2⟩
